import Mathlib

/-!
Shallow embedding of the data-aggregation and responsive-rendering pipeline of
the ECS272 book-swap visualization (three chart components: a stacked bar
chart, a genre×decade heatmap, and a Sankey flow diagram).

Modelling conventions:
* a CSV row (`CsvRow`) carries the five referenced columns; a field is
  `Option String` (`none` = the column is absent from the row, i.e. the JS
  value `undefined`).  `publicationYear` is modelled post-coercion as
  `Option Int`: `some n` stands for a field whose JS numeric coercion
  (`+d.publicationYear`) yields the integer `n`, `none` for a field whose
  coercion yields `NaN`.
* `d3.rollup` groups rows into a JS `Map`, whose keys appear in order of
  first occurrence; `firstKeys` and `rollupCount` reproduce that.
* JS `Array.prototype.sort` is stable; `sortCountDesc` is a stable
  insertion sort by descending count, which computes the same list.
-/

namespace BookSwap

/-- Keys of a list in order of first occurrence, each exactly once —
the key order of a JS `Map` filled by iterating the list. -/
def firstKeys {K : Type} [DecidableEq K] : List K → List K
  | [] => []
  | k :: ks => k :: (firstKeys ks).filter (fun x => ¬ x = k)

/-- Embedding of `d3.rollup(l, v => v.length, key)`: one `(key, count)` pair
per distinct key, in first-occurrence order. -/
def rollupCount {R K : Type} [DecidableEq K] (l : List R) (key : R → K) : List (K × Nat) :=
  (firstKeys (l.map key)).map (fun k => (k, (l.filter (fun r => key r = k)).length))

/-- Embedding of the two-level `d3.rollup(l, v => v.length, k1, k2)`:
outer groups in first-occurrence order of `k1`, each holding the inner
count rollup of its rows by `k2`. -/
def rollup2 {R K1 K2 : Type} [DecidableEq K1] [DecidableEq K2]
    (l : List R) (k1 : R → K1) (k2 : R → K2) : List (K1 × List (K2 × Nat)) :=
  (firstKeys (l.map k1)).map (fun g => (g, rollupCount (l.filter (fun r => k1 r = g)) k2))

/-- Stable insertion of a `(key, count)` pair into a list sorted by
descending count: the new element goes before the first strictly-smaller
count but after earlier equal counts — matching a stable JS sort with
comparator `(a, b) => b[1] - a[1]`. -/
def insertCountDesc {K : Type} (x : K × Nat) : List (K × Nat) → List (K × Nat)
  | [] => [x]
  | y :: ys => if x.2 ≥ y.2 then x :: y :: ys else y :: insertCountDesc x ys

/-- Stable sort by descending count, the model of
`.sort((a, b) => b[1] - a[1])` on rollup entries (JS sort is stable). -/
def sortCountDesc {K : Type} : List (K × Nat) → List (K × Nat)
  | [] => []
  | x :: xs => insertCountDesc x (sortCountDesc xs)

/-- One CSV record of `top_1000_most_swapped_books.csv`, restricted to the
columns the charts reference.  String columns are `none` when the field is
missing (JS `undefined`); `publicationYear` is the result of JS numeric
coercion of the field (`none` = `NaN`). -/
structure CsvRow where
  genre : Option String
  age_category : Option String
  publicationYear : Option Int
  bestseller_status : Option String
  adapted_to_movie : Option String
deriving DecidableEq

/-- `StackedBar` datum of `Example.tsx`: `{ category, stack, value }`. -/
structure StackedBar where
  category : String
  stack : String
  value : Nat
deriving DecidableEq

/-- `StackedBarChart.loadData` aggregation: nested rollup of the rows by
genre then age category, flattened to one `StackedBar` per group with
`genre ?? 'Unknown'` / `age ?? 'Unknown'` labels. -/
def barReducer (rows : List CsvRow) : List StackedBar :=
  ((rollup2 rows (fun r => r.genre) (fun r => r.age_category)).map
    (fun gm => gm.2.map (fun ac => StackedBar.mk (gm.1.getD "Unknown") (ac.1.getD "Unknown") ac.2))).flatten

/-- `HeatmapData` datum of `Chart2.tsx`: `{ genre, decade, count }`.  The
genre key is `Option String` because the code groups by the raw field
(`undefined` is a possible JS `Map` key); the decade is `none` when the
year coerces to `NaN` (all `NaN` keys share one `Map` bucket). -/
structure HeatmapData where
  genre : Option String
  decade : Option Int
  count : Nat
deriving DecidableEq

/-- Top-`n` genres by frequency: rollup the rows by genre, stable-sort the
entries by descending count, take the first `n` keys — the model of
`Array.from(rollup.entries()).sort((a,b) => b[1]-a[1]).slice(0,n).map(d => d[0])`. -/
def topGenresOf (rows : List CsvRow) (n : Nat) : List (Option String) :=
  ((sortCountDesc (rollupCount rows (fun r => r.genre))).take n).map (fun p => p.1)

/-- Outer grouping key of the heatmap rollup:
`topGenres.includes(d.genre!) ? d.genre! : 'Other'`. -/
def heatGenreKey (tops : List (Option String)) (g : Option String) : Option String :=
  if g ∈ tops then g else some "Other"

/-- Decade key of the heatmap rollup, `Math.floor(+d.publicationYear! / 10) * 10`:
floor-division by 10 times 10 on a numeric year, `NaN` (= `none`) otherwise. -/
def decadeKey (y : Option Int) : Option Int :=
  y.map (fun v => v.fdiv 10 * 10)

/-- `GenreDecadeHeatmap.loadData` aggregation: top-20 genres, two-level
rollup by bucketed genre then decade, flattened to `HeatmapData` entries. -/
def heatmapReducer (rows : List CsvRow) : List HeatmapData :=
  let tops := topGenresOf rows 20
  ((rollup2 rows (fun r => heatGenreKey tops r.genre) (fun r => decadeKey r.publicationYear)).map
    (fun gm => gm.2.map (fun dc => HeatmapData.mk gm.1 dc.1 dc.2))).flatten

/-- JS string conversion of a possibly-missing field, as in a template
literal or `String(x)`: `undefined` converts to the string `"undefined"`. -/
def jsStr : Option String → String
  | some s => s
  | none => "undefined"

/-- JS `toLowerCase`, modelled on the character list with the ASCII case
mapping (which covers the status strings the Sankey compares). -/
def jsToLower (s : String) : String :=
  ⟨s.data.map Char.toLower⟩

/-- Layer-3 label of `SankeyChart.loadData`:
`String(d.bestseller_status).toLowerCase() === 'true' ? 'Bestseller' : 'Not Bestseller'`. -/
def bestsellerLabel (f : Option String) : String :=
  if jsToLower (jsStr f) = "true" then "Bestseller" else "Not Bestseller"

/-- Layer-2 label of `SankeyChart.loadData`:
`String(d.adapted_to_movie).toLowerCase() === 'true' ? 'Adapted To Movie' : 'Not Adapted To Movie'`. -/
def movieLabel (f : Option String) : String :=
  if jsToLower (jsStr f) = "true" then "Adapted To Movie" else "Not Adapted To Movie"

/-- The three `addLink` calls a surviving row performs, in order
(genre→age, age→movie status, movie status→bestseller status); a row whose
genre is outside the top-10 set is skipped (`return` in the forEach). -/
def rowTransitions (tops : List (Option String)) (r : CsvRow) : List (String × String) :=
  if r.genre ∈ tops then
    [(jsStr r.genre, jsStr r.age_category),
     (jsStr r.age_category, movieLabel r.adapted_to_movie),
     (movieLabel r.adapted_to_movie, bestsellerLabel r.bestseller_status)]
  else []

/-- All link-stage transitions accumulated over the row sequence by
`SankeyChart.loadData`, in traversal order. -/
def flowTransitions (rows : List CsvRow) : List (String × String) :=
  (rows.map (rowTransitions (topGenresOf rows 10))).flatten

/-- Link-map key of `addLink`: the template literal `` `${source}|||${target}` ``. -/
def encodeKey (s t : String) : String :=
  s ++ "|||" ++ t

/-- First split of a character list at the separator `"|||"`, as performed
by JS `key.split('|||')`: `some (before, after)` at the leftmost
occurrence, `none` when the separator does not occur. -/
def splitSep : List Char → Option (List Char × List Char)
  | [] => none
  | c :: rest =>
      if c = '|' ∧ rest.take 2 = ['|', '|'] then some ([], rest.drop 2)
      else (splitSep rest).map (fun p => (c :: p.1, p.2))

/-- Reconstruction of `(source, target)` from a link-map key by
`const [source, target] = key.split('|||')`: the first two split segments.
A key without the separator has no second segment (JS `undefined`),
modelled as `""`; the reducer never builds such a key. -/
def decodeKey (k : String) : String × String :=
  match splitSep k.data with
  | none => (k, "")
  | some p =>
      match splitSep p.2 with
      | none => (⟨p.1⟩, ⟨p.2⟩)
      | some q => (⟨p.1⟩, ⟨q.1⟩)

/-- `MyLink` of `Example.tsx` (Sankey): `{ source, target, value }`. -/
structure MyLink where
  source : String
  target : String
  value : Nat
deriving DecidableEq

/-- `SankeyChart.loadData` link output: the link map (keyed by the encoded
string, counting `addLink` calls, in first-occurrence order) decoded back
into `(source, target, value)` records. -/
def flowLinks (rows : List CsvRow) : List MyLink :=
  (rollupCount (flowTransitions rows) (fun p => encodeKey p.1 p.2)).map
    (fun kv => MyLink.mk (decodeKey kv.1).1 (decodeKey kv.1).2 kv.2)

/-- `ComponentSize` of the chart components: measured container width and
height.  JS numbers carrying layout measurements are modelled as rationals
(the claims only compare them with zero). -/
structure ComponentSize where
  width : ℚ
  height : ℚ
deriving DecidableEq

/-- Trailing-edge debounce over a timed event trace, the model of
`useDebounceCallback(f, delay)` (lodash debounce): every call restarts the
timer; a call at time `t` fires at `t + delay` with its own payload exactly
when no further call arrives before `t + delay`.  Input traces are
time-ordered; the result is the trace of published updates. -/
def debounceTrail {A : Type} (delay : Nat) : List (Nat × A) → List (Nat × A)
  | [] => []
  | e :: rest =>
      match rest with
      | [] => [(e.1 + delay, e.2)]
      | f :: _ =>
          if e.1 + delay ≤ f.1 then (e.1 + delay, e.2) :: debounceTrail delay rest
          else debounceTrail delay rest

/-- `StackedBarChart.onResize = useDebounceCallback(size => setSize(size), 200)`:
the trace of `setSize` calls produced by a trace of resize notifications. -/
def barOnResize (events : List (Nat × ComponentSize)) : List (Nat × ComponentSize) :=
  debounceTrail 200 events

/-- `GenreDecadeHeatmap.onResize = useDebounceCallback(size => setSize(size), 200)`. -/
def heatmapOnResize (events : List (Nat × ComponentSize)) : List (Nat × ComponentSize) :=
  debounceTrail 200 events

/-- `SankeyChart`'s resize effect: a raw `ResizeObserver` whose callback
calls `setSize` directly for every entry — every notification publishes
immediately, with no debounce. -/
def sankeyOnResize (events : List (Nat × ComponentSize)) : List (Nat × ComponentSize) :=
  events

/-- Abstract visual mark appended by a draw function.  Geometry is
abstracted away; one constructor per kind of appended element. -/
inductive Mark
  | background
  | dataRect (category : String) (series : String)
  | axis (which : String)
  | chartTitle (text : String)
  | axisLabel (text : String)
  | legendItem (text : String)
  | sankeyLink (source target : String)
  | sankeyNode (name : String)
  | layerLabel (text : String)
deriving DecidableEq

/-- Marks appended by `StackedBarChart.drawChart`: background, one rect per
(series, category) cell of the stack layout, both axes, title, axis labels,
and one legend entry per stack key. -/
def drawBarChart (bars : List StackedBar) : List Mark :=
  let genres := firstKeys (bars.map (fun b => b.category))
  let stackKeys := firstKeys (bars.map (fun b => b.stack))
  [Mark.background]
    ++ ((stackKeys.map (fun s => genres.map (fun g => Mark.dataRect g s))).flatten)
    ++ [Mark.axis "x", Mark.axis "y",
        Mark.chartTitle "Top 1000 Swapped Books by Genre and Age Category",
        Mark.axisLabel "Genre", Mark.axisLabel "Counts"]
    ++ stackKeys.map Mark.legendItem

/-- The bar chart draw effect: `if (isEmpty(bars)) return;`
`if (size.width === 0 || size.height === 0) return;` then clear and draw. -/
def barDrawEffect (bars : List StackedBar) (size : ComponentSize) : List Mark :=
  if bars.isEmpty then []
  else if size.width = 0 ∨ size.height = 0 then []
  else drawBarChart bars

/-- Marks appended by `GenreDecadeHeatmap.drawChart`: background, one cell
per datum, axes, labels, title, and the two legends. -/
def drawHeatmap (data : List HeatmapData) : List Mark :=
  [Mark.background]
    ++ data.map (fun d => Mark.dataRect (jsStr d.genre) (toString (repr d.decade)))
    ++ [Mark.axis "x", Mark.axis "y",
        Mark.axisLabel "Publication Decade", Mark.axisLabel "Counts of Genre",
        Mark.chartTitle "Trends in Top 20 Genres of Top 1000 Swapped Book Publications",
        Mark.legendItem "Low", Mark.legendItem "High",
        Mark.legendItem "Most dominant Top-20 genre in each decade"]

/-- The heatmap draw effect:
`if (isEmpty(data) || size.width === 0 || size.height === 0) return;` then draw. -/
def heatmapDrawEffect (data : List HeatmapData) (size : ComponentSize) : List Mark :=
  if data.isEmpty ∨ size.width = 0 ∨ size.height = 0 then []
  else drawHeatmap data

/-- `MyNode` of `Example.tsx` (Sankey): `{ name, layer }`. -/
structure MyNode where
  name : String
  layer : Nat
deriving DecidableEq

/-- Marks appended by the Sankey draw effect: title, one path per link,
one node group per node, and the four layer labels. -/
def drawSankey (nodes : List MyNode) (links : List MyLink) : List Mark :=
  [Mark.chartTitle "Top 1000 Swapped Books Sankey Diagram"]
    ++ links.map (fun l => Mark.sankeyLink l.source l.target)
    ++ nodes.map (fun n => Mark.sankeyNode n.name)
    ++ ["Genre", "Age Category", "Movie Adaptation", "Bestseller Status"].map Mark.layerLabel

/-- The Sankey draw effect: `if (!nodeData.length || !linkData.length) return;`
`if (!size.width || !size.height) return;` then clear and draw. -/
def sankeyDrawEffect (nodes : List MyNode) (links : List MyLink) (size : ComponentSize) : List Mark :=
  if nodes.length = 0 ∨ links.length = 0 then []
  else if size.width = 0 ∨ size.height = 0 then []
  else drawSankey nodes links

/-- Modelled from the spec: a raw-row field counts as "non-empty" when it
is present and not the empty string (C3's phrase "rows whose genre/age
fields were non-empty"). -/
def specNonEmptyField : Option String → Bool
  | some s => ¬ s = ""
  | none => false

theorem mem_firstKeys {K : Type} [DecidableEq K] (a : K) (l : List K) :
    a ∈ firstKeys l ↔ a ∈ l := by
  induction l with
  | nil => simp [firstKeys]
  | cons k ks ih =>
      by_cases hak : a = k
      · simp [firstKeys, hak]
      · simp [firstKeys, hak, ih]

theorem nodup_firstKeys {K : Type} [DecidableEq K] (l : List K) : (firstKeys l).Nodup := by
  induction l with
  | nil => simp [firstKeys]
  | cons k ks ih =>
      refine List.Nodup.cons ?_ (ih.filter _)
      simp

theorem firstKeys_eq_nil {K : Type} [DecidableEq K] {l : List K} (h : firstKeys l = []) :
    l = [] := by
  cases l with
  | nil => rfl
  | cons k ks => simp [firstKeys] at h

theorem sum_map_add {A : Type} (f g : A → Nat) (l : List A) :
    (l.map (fun x => f x + g x)).sum = (l.map f).sum + (l.map g).sum := by
  induction l with
  | nil => rfl
  | cons x xs ih => simp [ih]; omega

theorem sum_indicator_eq_count {K : Type} [DecidableEq K] (a : K) (ks : List K) :
    (ks.map (fun k => if a = k then 1 else 0)).sum = ks.count a := by
  induction ks with
  | nil => simp
  | cons k ks ih =>
      by_cases h : a = k
      · subst h
        simp [List.count_cons, ih]
        omega
      · simp [List.count_cons, ih, h, Ne.symm h]

/-- A family of groups indexed by a duplicate-free cover of the keys
partitions the list: the group sizes add up to the list length. -/
theorem sum_filter_length_eq {R K : Type} [DecidableEq K] (key : R → K) (ks : List K)
    (hnd : ks.Nodup) (l : List R) (hcov : ∀ r ∈ l, key r ∈ ks) :
    (ks.map (fun k => (l.filter (fun r => key r = k)).length)).sum = l.length := by
  induction l with
  | nil => simp
  | cons r rs ih =>
      have hmem : key r ∈ ks := hcov r (by simp)
      have hrs := ih (fun x hx => hcov x (by simp [hx]))
      have hstep : ∀ k ∈ ks, ((r :: rs).filter (fun x => key x = k)).length
          = (rs.filter (fun x => key x = k)).length + (if key r = k then 1 else 0) := by
        intro k _
        by_cases h : key r = k <;> simp [List.filter_cons, h]
      rw [List.map_congr_left hstep, sum_map_add, hrs, sum_indicator_eq_count,
        List.count_eq_one_of_mem hnd hmem]
      simp

theorem rollupCount_sum {R K : Type} [DecidableEq K] (l : List R) (key : R → K) :
    ((rollupCount l key).map (fun p => p.2)).sum = l.length := by
  unfold rollupCount
  rw [List.map_map]
  exact sum_filter_length_eq key (firstKeys (l.map key)) (nodup_firstKeys _) l
    (fun r hr => (mem_firstKeys _ _).mpr (List.mem_map_of_mem _ hr))

theorem mem_rollupCount_of_mem {R K : Type} [DecidableEq K] {l : List R} {r : R}
    (key : R → K) (hr : r ∈ l) :
    (key r, (l.filter (fun x => key x = key r)).length) ∈ rollupCount l key := by
  unfold rollupCount
  exact List.mem_map_of_mem _ ((mem_firstKeys _ _).mpr (List.mem_map_of_mem _ hr))

theorem of_mem_rollupCount {R K : Type} [DecidableEq K] {l : List R} {key : R → K}
    {k : K} {c : Nat} (h : (k, c) ∈ rollupCount l key) :
    (∃ r ∈ l, key r = k) ∧ c = (l.filter (fun x => key x = k)).length := by
  unfold rollupCount at h
  obtain ⟨k2, hk2, heq⟩ := List.mem_map.mp h
  cases heq
  refine ⟨?_, rfl⟩
  obtain ⟨r, hr, hkey⟩ := List.mem_map.mp ((mem_firstKeys _ _).mp hk2)
  exact ⟨r, hr, hkey⟩

theorem rollupCount_keys_nodup {R K : Type} [DecidableEq K] (l : List R) (key : R → K) :
    ((rollupCount l key).map Prod.fst).Nodup := by
  unfold rollupCount
  rw [List.map_map]
  have h : (Prod.fst ∘ fun k : K => (k, (l.filter (fun r => key r = k)).length)) = id := rfl
  rw [h, List.map_id]
  exact nodup_firstKeys _

theorem rollupCount_ne_nil {R K : Type} [DecidableEq K] {l : List R} (key : R → K)
    (h : l ≠ []) : rollupCount l key ≠ [] := by
  unfold rollupCount
  intro hc
  rw [List.map_eq_nil_iff] at hc
  exact h (by simpa using congrArg List.length (firstKeys_eq_nil hc))

theorem mem_insertCountDesc {K : Type} (x y : K × Nat) (l : List (K × Nat)) :
    y ∈ insertCountDesc x l ↔ y = x ∨ y ∈ l := by
  induction l with
  | nil => simp [insertCountDesc]
  | cons z zs ih =>
      by_cases h : x.2 ≥ z.2
      · simp [insertCountDesc, h]
      · simp [insertCountDesc, h, ih]
        tauto

theorem mem_sortCountDesc {K : Type} (y : K × Nat) (l : List (K × Nat)) :
    y ∈ sortCountDesc l ↔ y ∈ l := by
  induction l with
  | nil => simp [sortCountDesc]
  | cons x xs ih => simp [sortCountDesc, mem_insertCountDesc, ih]

theorem topGenresOf_sub (rows : List CsvRow) (n : Nat) :
    ∀ g ∈ topGenresOf rows n, ∃ r ∈ rows, r.genre = g := by
  intro g hg
  unfold topGenresOf at hg
  obtain ⟨⟨k, c⟩, hmem, rfl⟩ := List.mem_map.mp hg
  have h2 : (k, c) ∈ sortCountDesc (rollupCount rows (fun r => r.genre)) :=
    List.mem_of_mem_take hmem
  obtain ⟨⟨r, hr, hk⟩, _⟩ := of_mem_rollupCount ((mem_sortCountDesc _ _).mp h2)
  exact ⟨r, hr, hk⟩

theorem topGenresOf_length_le (rows : List CsvRow) (n : Nat) :
    (topGenresOf rows n).length ≤ n := by
  unfold topGenresOf
  rw [List.length_map]
  exact List.length_take_le n _

/-- The counts of a two-level rollup add up to the number of rows: no row
is dropped and none is counted twice. -/
theorem rollup2_sum_counts {R K1 K2 : Type} [DecidableEq K1] [DecidableEq K2]
    (l : List R) (k1 : R → K1) (k2 : R → K2) :
    ((rollup2 l k1 k2).map (fun gm => (gm.2.map (fun p => p.2)).sum)).sum = l.length := by
  unfold rollup2
  rw [List.map_map]
  have h : ∀ g ∈ firstKeys (l.map k1),
      ((fun gm : K1 × List (K2 × Nat) => (gm.2.map (fun p => p.2)).sum) ∘
        fun g => (g, rollupCount (l.filter (fun r => k1 r = g)) k2)) g
      = (l.filter (fun r => k1 r = g)).length := by
    intro g _
    exact rollupCount_sum _ _
  rw [List.map_congr_left h]
  exact sum_filter_length_eq k1 (firstKeys (l.map k1)) (nodup_firstKeys _) l
    (fun r hr => (mem_firstKeys _ _).mpr (List.mem_map_of_mem _ hr))

/-- Every row of a two-level rollup is represented: its outer group is
present and holds the row's inner key with the full group count. -/
theorem rollup2_mem_of_mem {R K1 K2 : Type} [DecidableEq K1] [DecidableEq K2]
    {l : List R} {r : R} (k1 : R → K1) (k2 : R → K2) (hr : r ∈ l) :
    ∃ m, (k1 r, m) ∈ rollup2 l k1 k2 ∧
      (k2 r, ((l.filter (fun x => k1 x = k1 r)).filter (fun x => k2 x = k2 r)).length) ∈ m := by
  refine ⟨rollupCount (l.filter (fun x => k1 x = k1 r)) k2, ?_, ?_⟩
  · unfold rollup2
    exact List.mem_map_of_mem _ ((mem_firstKeys _ _).mpr (List.mem_map_of_mem _ hr))
  · have hr2 : r ∈ l.filter (fun x => k1 x = k1 r) := List.mem_filter.mpr ⟨hr, by simp⟩
    exact mem_rollupCount_of_mem k2 hr2

/-- Every entry of a two-level rollup is generated by some row, and its
count is the size of the corresponding double filter. -/
theorem of_mem_rollup2 {R K1 K2 : Type} [DecidableEq K1] [DecidableEq K2]
    {l : List R} {k1 : R → K1} {k2 : R → K2} {g : K1} {m : List (K2 × Nat)}
    {k : K2} {c : Nat} (hm : (g, m) ∈ rollup2 l k1 k2) (hk : (k, c) ∈ m) :
    (∃ r ∈ l, k1 r = g ∧ k2 r = k) ∧
      c = ((l.filter (fun x => k1 x = g)).filter (fun x => k2 x = k)).length := by
  unfold rollup2 at hm
  obtain ⟨g2, hg2, heq⟩ := List.mem_map.mp hm
  cases heq
  obtain ⟨⟨r, hr, hkey⟩, hc⟩ := of_mem_rollupCount hk
  obtain ⟨hr1, hg⟩ := List.mem_filter.mp hr
  refine ⟨⟨r, hr1, by simpa using hg, hkey⟩, hc⟩

/-- Decomposition of membership in the bar reducer output. -/
theorem mem_barReducer_iff {rows : List CsvRow} {b : StackedBar} :
    b ∈ barReducer rows ↔
      ∃ g m, (g, m) ∈ rollup2 rows (fun r => r.genre) (fun r => r.age_category) ∧
        ∃ a c, (a, c) ∈ m ∧ b = StackedBar.mk (g.getD "Unknown") (a.getD "Unknown") c := by
  unfold barReducer
  rw [List.mem_flatten]
  constructor
  · rintro ⟨L, hL, hb⟩
    obtain ⟨⟨g, m⟩, hgm, hL2⟩ := List.mem_map.mp hL
    subst hL2
    obtain ⟨⟨a, c⟩, hac, hb2⟩ := List.mem_map.mp hb
    exact ⟨g, m, hgm, a, c, hac, hb2.symm⟩
  · rintro ⟨g, m, hgm, a, c, hac, rfl⟩
    refine ⟨_, List.mem_map_of_mem _ hgm, ?_⟩
    exact List.mem_map_of_mem _ hac

/-- Decomposition of membership in the heatmap reducer output. -/
theorem mem_heatmapReducer_iff {rows : List CsvRow} {d : HeatmapData} :
    d ∈ heatmapReducer rows ↔
      ∃ g m, (g, m) ∈ rollup2 rows (fun r => heatGenreKey (topGenresOf rows 20) r.genre)
          (fun r => decadeKey r.publicationYear) ∧
        ∃ k c, (k, c) ∈ m ∧ d = HeatmapData.mk g k c := by
  unfold heatmapReducer
  rw [List.mem_flatten]
  constructor
  · rintro ⟨L, hL, hd⟩
    obtain ⟨⟨g, m⟩, hgm, hL2⟩ := List.mem_map.mp hL
    subst hL2
    obtain ⟨⟨k, c⟩, hkc, hd2⟩ := List.mem_map.mp hd
    exact ⟨g, m, hgm, k, c, hkc, hd2.symm⟩
  · rintro ⟨g, m, hgm, k, c, hkc, rfl⟩
    refine ⟨_, List.mem_map_of_mem _ hgm, ?_⟩
    exact List.mem_map_of_mem _ hkc

/-- Summing the count component over a flattened two-level rollup, through
any record constructor that stores the count, gives the total row count. -/
theorem flat_map_value_sum {K1 K2 B : Type} (L : List (K1 × List (K2 × Nat)))
    (f : K1 → K2 × Nat → B) (val : B → Nat) (hval : ∀ g p, val (f g p) = p.2) :
    (((L.map (fun gm => gm.2.map (f gm.1))).flatten).map val).sum
      = (L.map (fun gm => (gm.2.map (fun p => p.2)).sum)).sum := by
  rw [List.map_flatten, List.sum_flatten, List.map_map, List.map_map]
  apply congrArg
  apply List.map_congr_left
  intro gm _
  show ((gm.2.map (f gm.1)).map val).sum = (gm.2.map (fun p => p.2)).sum
  rw [List.map_map]
  apply congrArg
  apply List.map_congr_left
  intro p _
  exact hval gm.1 p

theorem barReducer_sum (rows : List CsvRow) :
    ((barReducer rows).map (fun b => b.value)).sum = rows.length := by
  have h := flat_map_value_sum (rollup2 rows (fun r => r.genre) (fun r => r.age_category))
    (fun g ac => StackedBar.mk (g.getD "Unknown") (ac.1.getD "Unknown") ac.2)
    (fun b => b.value) (fun g p => rfl)
  exact h.trans (rollup2_sum_counts _ _ _)

theorem heatmapReducer_sum (rows : List CsvRow) :
    ((heatmapReducer rows).map (fun d => d.count)).sum = rows.length := by
  have h := flat_map_value_sum
    (rollup2 rows (fun r => heatGenreKey (topGenresOf rows 20) r.genre)
      (fun r => decadeKey r.publicationYear))
    (fun g dc => HeatmapData.mk g dc.1 dc.2)
    (fun d => d.count) (fun g p => rfl)
  exact h.trans (rollup2_sum_counts _ _ _)

/-- C3 counterexample: a single row whose genre field is present but empty
is still counted by the bar reducer (the `?? 'Unknown'` fallback does not
fire on the empty string), so the sum of emitted values is 1 while the
count of rows with non-empty genre/age fields is 0. -/
theorem C3_counterexample :
    ((barReducer [CsvRow.mk (some "") (some "Adult") none none none]).map
        (fun b => b.value)).sum
      ≠ (([CsvRow.mk (some "") (some "Adult") none none none]).filter
        (fun r => specNonEmptyField r.genre && specNonEmptyField r.age_category)).length := by
  decide

/-- C3 (amended): for every raw-row sequence, the sum of the value fields
over all bar-reducer datums equals the total number of input rows — no row
is excluded, whatever its genre/age fields contain. -/
theorem C3_amended_thm (rows : List CsvRow) :
    ((barReducer rows).map (fun b => b.value)).sum = rows.length :=
  barReducer_sum rows

/-- C8: on the three rows (Fiction, Adult), (Fiction, Adult), (Fiction, Teen)
the bar reducer emits exactly the two datums (Fiction, Adult, 2) and
(Fiction, Teen, 1). -/
theorem C8_thm :
    barReducer
      [CsvRow.mk (some "Fiction") (some "Adult") none none none,
       CsvRow.mk (some "Fiction") (some "Adult") none none none,
       CsvRow.mk (some "Fiction") (some "Teen") none none none]
    = [StackedBar.mk "Fiction" "Adult" 2, StackedBar.mk "Fiction" "Teen" 1] := by
  decide

/-- C4: every row of the bar reducer input — in particular one whose genre
or age-category field is missing — is emitted in a datum labelled with the
`?? 'Unknown'`-normalized labels, carrying the full count of its group
(so it is neither excluded nor left under a distinct empty label). -/
theorem C4_thm (rows : List CsvRow) (r : CsvRow) (hr : r ∈ rows)
    (_hmiss : r.genre = none ∨ r.age_category = none) :
    ∃ b ∈ barReducer rows,
      b.category = r.genre.getD "Unknown" ∧ b.stack = r.age_category.getD "Unknown" ∧
      (r.genre = none → b.category = "Unknown") ∧
      (r.age_category = none → b.stack = "Unknown") ∧
      b.value = ((rows.filter (fun x => x.genre = r.genre)).filter
        (fun x => x.age_category = r.age_category)).length ∧ 0 < b.value := by
  obtain ⟨m, hm, hin⟩ := rollup2_mem_of_mem (fun r => r.genre) (fun r => r.age_category) hr
  refine ⟨StackedBar.mk (r.genre.getD "Unknown") (r.age_category.getD "Unknown") _,
    mem_barReducer_iff.mpr ⟨_, m, hm, _, _, hin, rfl⟩, rfl, rfl, ?_, ?_, rfl, ?_⟩
  · intro h
    simp [h]
  · intro h
    simp [h]
  · have hmem : r ∈ (rows.filter (fun x => x.genre = r.genre)).filter
        (fun x => x.age_category = r.age_category) :=
      List.mem_filter.mpr ⟨List.mem_filter.mpr ⟨hr, by simp⟩, by simp⟩
    exact List.length_pos_of_mem hmem

/-- Witness for C4: on a single row with missing genre, the bar reducer
emits the datum (Unknown, Teen, 1). -/
theorem C4_witness :
    ∃ b ∈ barReducer [CsvRow.mk none (some "Teen") none none none],
      b.category = "Unknown" ∧ b.stack = "Teen" ∧
      ((CsvRow.mk none (some "Teen") none none none).genre = none → b.category = "Unknown") ∧
      ((CsvRow.mk none (some "Teen") none none none).age_category = none → b.stack = "Unknown") ∧
      b.value = (([CsvRow.mk none (some "Teen") none none none].filter
          (fun x => x.genre = none)).filter (fun x => x.age_category = some "Teen")).length ∧
      0 < b.value :=
  C4_thm [CsvRow.mk none (some "Teen") none none none]
    (CsvRow.mk none (some "Teen") none none none) (by decide) (Or.inl rfl)

/-- C1 counterexample: a row whose publicationYear field is non-numeric
(coercion yields NaN, modelled `none`) is not excluded by the heatmap
reducer — its NaN-keyed decade bucket appears in the output. -/
theorem C1_counterexample :
    heatmapReducer [CsvRow.mk (some "A") (some "Adult") none none none]
      = [HeatmapData.mk (some "A") none 1] := by
  decide

/-- C1 (amended): the heatmap reducer excludes no row: the counts of its
output sum to the number of input rows, and every row with a non-numeric
publicationYear lands in a datum whose decade key is the NaN bucket
(`none`), under the row's bucketed genre. -/
theorem C1_amended_thm (rows : List CsvRow) :
    ((heatmapReducer rows).map (fun d => d.count)).sum = rows.length
    ∧ ∀ r ∈ rows, r.publicationYear = none →
        ∃ d ∈ heatmapReducer rows, d.decade = none ∧
          d.genre = heatGenreKey (topGenresOf rows 20) r.genre := by
  refine ⟨heatmapReducer_sum rows, ?_⟩
  intro r hr hy
  obtain ⟨m, hm, hin⟩ := rollup2_mem_of_mem
    (fun r => heatGenreKey (topGenresOf rows 20) r.genre)
    (fun r => decadeKey r.publicationYear) hr
  refine ⟨HeatmapData.mk (heatGenreKey (topGenresOf rows 20) r.genre)
    (decadeKey r.publicationYear) _,
    mem_heatmapReducer_iff.mpr ⟨_, m, hm, _, _, hin, rfl⟩, ?_, rfl⟩
  simp [decadeKey, hy]

/-- Witness for C1 (amended): on a one-row input with non-numeric year the
counts sum to 1 and a NaN-decade datum for the row's genre exists. -/
theorem C1_witness :
    ((heatmapReducer [CsvRow.mk (some "A") (some "Adult") none none none]).map
        (fun d => d.count)).sum = 1
    ∧ ∃ d ∈ heatmapReducer [CsvRow.mk (some "A") (some "Adult") none none none],
        d.decade = none ∧
        d.genre = heatGenreKey
          (topGenresOf [CsvRow.mk (some "A") (some "Adult") none none none] 20) (some "A") :=
  ⟨(C1_amended_thm [CsvRow.mk (some "A") (some "Adult") none none none]).1,
   (C1_amended_thm [CsvRow.mk (some "A") (some "Adult") none none none]).2
     (CsvRow.mk (some "A") (some "Adult") none none none) (by decide) rfl⟩

/-- C9: the heatmap decade key is floor(year / 10) * 10 on every numeric
year; every output datum's decade is the decade key of one of its rows; and
on concrete rows with years 1994 and 1996 both land in decade 1990. -/
theorem C9_thm (rows : List CsvRow) :
    (∀ y : Int, decadeKey (some y) = some (y.fdiv 10 * 10))
    ∧ (∀ d ∈ heatmapReducer rows, ∃ r ∈ rows, d.decade = decadeKey r.publicationYear)
    ∧ heatmapReducer
        [CsvRow.mk (some "Fiction") none (some 1994) none none,
         CsvRow.mk (some "Fiction") none (some 1996) none none]
      = [HeatmapData.mk (some "Fiction") (some 1990) 2] := by
  refine ⟨fun y => rfl, ?_, by decide⟩
  intro d hd
  obtain ⟨g, m, hm, k, c, hkc, rfl⟩ := mem_heatmapReducer_iff.mp hd
  obtain ⟨⟨r, hr, hk1, hk2⟩, _⟩ := of_mem_rollup2 hm hkc
  exact ⟨r, hr, hk2.symm⟩

/-- Witness for C9: a concrete datum of a concrete run has the decade key
of the row that produced it. -/
theorem C9_witness :
    ∃ r ∈ [CsvRow.mk (some "A") none (some 1994) none none],
      (HeatmapData.mk (some "A") (some 1990) 1).decade = decadeKey r.publicationYear :=
  (C9_thm [CsvRow.mk (some "A") none (some 1994) none none]).2.1
    (HeatmapData.mk (some "A") (some 1990) 1) (by decide)

theorem heatGenreKey_cases (tops : List (Option String)) (g go : Option String) :
    heatGenreKey tops g = go ↔ (g ∈ tops ∧ go = g) ∨ (g ∉ tops ∧ go = some "Other") := by
  unfold heatGenreKey
  by_cases h : g ∈ tops <;> simp [h, eq_comm]

/-- The genre labels occurring in the heatmap output are exactly the images
of the rows' genres under the top-20-or-Other bucketing. -/
theorem heatmap_genre_mem_iff (rows : List CsvRow) (go : Option String) :
    (∃ d ∈ heatmapReducer rows, d.genre = go) ↔
      ∃ r ∈ rows, heatGenreKey (topGenresOf rows 20) r.genre = go := by
  constructor
  · rintro ⟨d, hd, rfl⟩
    obtain ⟨g, m, hm, k, c, hkc, rfl⟩ := mem_heatmapReducer_iff.mp hd
    obtain ⟨⟨r, hr, hk1, _⟩, _⟩ := of_mem_rollup2 hm hkc
    exact ⟨r, hr, hk1⟩
  · rintro ⟨r, hr, rfl⟩
    obtain ⟨m, hm, hin⟩ := rollup2_mem_of_mem
      (fun r => heatGenreKey (topGenresOf rows 20) r.genre)
      (fun r => decadeKey r.publicationYear) hr
    exact ⟨_, mem_heatmapReducer_iff.mpr ⟨_, m, hm, _, _, hin, rfl⟩, rfl⟩

/-- C5: the genre labels of the heatmap output are exactly the top-20
genres, plus "Other" exactly when some row's genre falls outside them, and
there are at most 21 distinct labels. -/
theorem C5_thm (rows : List CsvRow) :
    (∀ go : Option String,
      (∃ d ∈ heatmapReducer rows, d.genre = go) ↔
        (go ∈ topGenresOf rows 20
          ∨ (go = some "Other" ∧ ∃ r ∈ rows, r.genre ∉ topGenresOf rows 20)))
    ∧ ((heatmapReducer rows).map (fun d => d.genre)).toFinset.card ≤ 21 := by
  have hchar : ∀ go : Option String,
      (∃ d ∈ heatmapReducer rows, d.genre = go) ↔
        (go ∈ topGenresOf rows 20
          ∨ (go = some "Other" ∧ ∃ r ∈ rows, r.genre ∉ topGenresOf rows 20)) := by
    intro go
    rw [heatmap_genre_mem_iff]
    constructor
    · rintro ⟨r, hr, hk⟩
      rcases (heatGenreKey_cases _ _ _).mp hk with ⟨hin, rfl⟩ | ⟨hout, rfl⟩
      · exact Or.inl hin
      · exact Or.inr ⟨rfl, r, hr, hout⟩
    · rintro (hin | ⟨rfl, r, hr, hout⟩)
      · obtain ⟨r, hr, hg⟩ := topGenresOf_sub rows 20 go hin
        exact ⟨r, hr, (heatGenreKey_cases _ _ _).mpr (Or.inl ⟨hg ▸ hin, hg.symm⟩)⟩
      · exact ⟨r, hr, (heatGenreKey_cases _ _ _).mpr (Or.inr ⟨hout, rfl⟩)⟩
  refine ⟨hchar, ?_⟩
  have hsub : ((heatmapReducer rows).map (fun d => d.genre)).toFinset ⊆
      (topGenresOf rows 20).toFinset ∪ {some "Other"} := by
    intro go hgo
    rw [List.mem_toFinset] at hgo
    obtain ⟨d, hd, rfl⟩ := List.mem_map.mp hgo
    rcases (hchar d.genre).mp ⟨d, hd, rfl⟩ with hin | ⟨heq, _⟩
    · exact Finset.mem_union_left _ (List.mem_toFinset.mpr hin)
    · exact Finset.mem_union_right _ (by simp [heq])
  calc ((heatmapReducer rows).map (fun d => d.genre)).toFinset.card
      ≤ ((topGenresOf rows 20).toFinset ∪ {some "Other"}).card := Finset.card_le_card hsub
    _ ≤ (topGenresOf rows 20).toFinset.card + 1 :=
        le_trans (Finset.card_union_le _ _) (by simp)
    _ ≤ (topGenresOf rows 20).length + 1 := by
        have := (topGenresOf rows 20).toFinset_card_le
        omega
    _ ≤ 21 := by
        have := topGenresOf_length_le rows 20
        omega

/-- C7: each chart's draw effect produces no marks when its aggregated data
is empty or the measured size has zero width or height. -/
theorem C7_thm (bars : List StackedBar) (data : List HeatmapData)
    (nodes : List MyNode) (links : List MyLink) (size : ComponentSize) :
    (bars = [] ∨ size.width = 0 ∨ size.height = 0 → barDrawEffect bars size = [])
    ∧ (data = [] ∨ size.width = 0 ∨ size.height = 0 → heatmapDrawEffect data size = [])
    ∧ (nodes = [] ∨ links = [] ∨ size.width = 0 ∨ size.height = 0 →
        sankeyDrawEffect nodes links size = []) := by
  refine ⟨?_, ?_, ?_⟩
  · unfold barDrawEffect
    rintro (rfl | h | h) <;> simp [*]
  · unfold heatmapDrawEffect
    rintro (rfl | h | h) <;> simp [*]
  · unfold sankeyDrawEffect
    rintro (rfl | rfl | h | h) <;> simp [*]

/-- Witness for C7: with empty data and a non-degenerate size each chart
draws nothing. -/
theorem C7_witness :
    barDrawEffect [] (ComponentSize.mk 500 300) = []
    ∧ heatmapDrawEffect [] (ComponentSize.mk 500 300) = []
    ∧ sankeyDrawEffect [] [] (ComponentSize.mk 500 300) = [] :=
  ⟨(C7_thm [] [] [] [] (ComponentSize.mk 500 300)).1 (Or.inl rfl),
   (C7_thm [] [] [] [] (ComponentSize.mk 500 300)).2.1 (Or.inl rfl),
   (C7_thm [] [] [] [] (ComponentSize.mk 500 300)).2.2 (Or.inl rfl)⟩

/-- A burst — a nonempty trace in which every notification arrives before
the previous one's debounce timer expires — collapses under trailing-edge
debouncing to a single publication carrying the last measurement. -/
theorem debounceTrail_burst {A : Type} (delay : Nat) :
    ∀ (events : List (Nat × A)) (h1 : events ≠ []),
      List.Chain' (fun p q => q.1 < p.1 + delay) events →
      debounceTrail delay events
        = [((events.getLast h1).1 + delay, (events.getLast h1).2)] := by
  intro events
  induction events with
  | nil => intro h1; exact absurd rfl h1
  | cons e rest ih =>
      intro h1 h2
      cases rest with
      | nil => simp [debounceTrail]
      | cons f rest2 =>
          have hlt : f.1 < e.1 + delay := (List.chain'_cons.mp h2).1
          have hnot : ¬ (e.1 + delay ≤ f.1) := by omega
          rw [List.getLast_cons (by simp)]
          have hrec := ih (by simp) (List.chain'_cons.mp h2).2
          simpa [debounceTrail, hnot] using hrec

/-- C2 counterexample: the Sankey chart has no debounce — a burst of two
notifications 100ms apart publishes two updates, not one. -/
theorem C2_counterexample :
    (sankeyOnResize [(0, ComponentSize.mk 300 200), (100, ComponentSize.mk 150 100)]).length = 2
    ∧ ¬ (sankeyOnResize
        [(0, ComponentSize.mk 300 200), (100, ComponentSize.mk 150 100)]).length = 1 := by
  decide

/-- C2 (amended): the stacked bar and heatmap charts debounce resize
notifications at 200ms — a burst publishes exactly one update carrying the
last measurement — while the Sankey chart publishes every notification
immediately, with no debounce. -/
theorem C2_amended_thm (events : List (Nat × ComponentSize)) (h1 : events ≠ [])
    (h2 : List.Chain' (fun p q => q.1 < p.1 + 200) events) :
    barOnResize events = [((events.getLast h1).1 + 200, (events.getLast h1).2)]
    ∧ heatmapOnResize events = [((events.getLast h1).1 + 200, (events.getLast h1).2)]
    ∧ sankeyOnResize events = events :=
  ⟨debounceTrail_burst 200 events h1 h2, debounceTrail_burst 200 events h1 h2, rfl⟩

/-- Witness for C2 (amended): a concrete 2-notification burst coalesces to
one update for the debounced charts and stays two updates for the Sankey. -/
theorem C2_witness :
    barOnResize [(0, ComponentSize.mk 300 200), (100, ComponentSize.mk 150 100)]
      = [(300, ComponentSize.mk 150 100)]
    ∧ heatmapOnResize [(0, ComponentSize.mk 300 200), (100, ComponentSize.mk 150 100)]
      = [(300, ComponentSize.mk 150 100)]
    ∧ sankeyOnResize [(0, ComponentSize.mk 300 200), (100, ComponentSize.mk 150 100)]
      = [(0, ComponentSize.mk 300 200), (100, ComponentSize.mk 150 100)] :=
  C2_amended_thm [(0, ComponentSize.mk 300 200), (100, ComponentSize.mk 150 100)]
    (by decide) (List.chain'_pair.mpr (by decide))

/-- A label that does not contain the pipe character, so that it cannot
collide with the `'|||'` separator of the Sankey link-map keys. -/
abbrev PipeFree (s : String) : Prop := '|' ∉ s.data

theorem splitSep_of_no_pipe {t : List Char} (h : '|' ∉ t) : splitSep t = none := by
  induction t with
  | nil => rfl
  | cons c rest ih =>
      have hc : ¬ c = '|' := fun hc => h (by simp [hc])
      have hrest : '|' ∉ rest := fun hm => h (by simp [hm])
      simp only [splitSep]
      rw [if_neg (fun hh => hc hh.1), ih hrest]
      rfl

theorem splitSep_append {s : List Char} (t : List Char) (hs : '|' ∉ s) :
    splitSep (s ++ '|' :: '|' :: '|' :: t) = some (s, t) := by
  induction s with
  | nil => rfl
  | cons c s2 ih =>
      have hc : ¬ c = '|' := fun h => hs (by simp [h])
      have hs2 : '|' ∉ s2 := fun h => hs (by simp [h])
      show splitSep (c :: (s2 ++ '|' :: '|' :: '|' :: t)) = some (c :: s2, t)
      simp only [splitSep]
      rw [if_neg (fun hh => hc hh.1), ih hs2]
      rfl

/-- Splitting a pipe-free source and target back out of their encoded link
key recovers them exactly. -/
theorem decodeKey_encodeKey {s t : String} (hs : PipeFree s) (ht : PipeFree t) :
    decodeKey (encodeKey s t) = (s, t) := by
  have hdata : (encodeKey s t).data = s.data ++ '|' :: '|' :: '|' :: t.data := by
    show (s.data ++ ['|', '|', '|']) ++ t.data = s.data ++ '|' :: '|' :: '|' :: t.data
    rw [List.append_assoc]
    rfl
  have h1 : splitSep (encodeKey s t).data = some (s.data, t.data) := by
    rw [hdata]
    exact splitSep_append t.data hs
  unfold decodeKey
  rw [h1]
  show (match splitSep t.data with
        | none => ((⟨s.data⟩ : String), (⟨t.data⟩ : String))
        | some q => ((⟨s.data⟩ : String), (⟨q.1⟩ : String))) = (s, t)
  rw [splitSep_of_no_pipe ht]

theorem encodeKey_inj {s1 t1 s2 t2 : String}
    (h1 : PipeFree s1) (h2 : PipeFree t1) (h3 : PipeFree s2) (h4 : PipeFree t2)
    (h : encodeKey s1 t1 = encodeKey s2 t2) : s1 = s2 ∧ t1 = t2 := by
  have hd := congrArg decodeKey h
  rw [decodeKey_encodeKey h1 h2, decodeKey_encodeKey h3 h4] at hd
  exact ⟨congrArg Prod.fst hd, congrArg Prod.snd hd⟩

theorem movieLabel_pipeFree (f : Option String) : PipeFree (movieLabel f) := by
  unfold movieLabel
  by_cases h : jsToLower (jsStr f) = "true" <;> simp [h] <;> decide

theorem bestsellerLabel_pipeFree (f : Option String) : PipeFree (bestsellerLabel f) := by
  unfold bestsellerLabel
  by_cases h : jsToLower (jsStr f) = "true" <;> simp [h] <;> decide

/-- Under the pipe-free hypothesis on genre and age labels, every component
of every accumulated transition is pipe-free. -/
theorem flowTransitions_pipeFree (rows : List CsvRow)
    (hp : ∀ r ∈ rows, PipeFree (jsStr r.genre) ∧ PipeFree (jsStr r.age_category)) :
    ∀ p ∈ flowTransitions rows, PipeFree p.1 ∧ PipeFree p.2 := by
  intro p hpT
  unfold flowTransitions at hpT
  rw [List.mem_flatten] at hpT
  obtain ⟨L, hL, hpL⟩ := hpT
  obtain ⟨r, hr, rfl⟩ := List.mem_map.mp hL
  unfold rowTransitions at hpL
  by_cases hg : r.genre ∈ topGenresOf rows 10
  · rw [if_pos hg] at hpL
    have hpr := hp r hr
    rw [List.mem_cons, List.mem_cons, List.mem_singleton] at hpL
    rcases hpL with h | h | h
    · rw [h]
      exact ⟨hpr.1, hpr.2⟩
    · rw [h]
      exact ⟨hpr.2, movieLabel_pipeFree _⟩
    · rw [h]
      exact ⟨movieLabel_pipeFree _, bestsellerLabel_pipeFree _⟩
  · rw [if_neg hg] at hpL
    simp at hpL

/-- In a pair list whose first components are duplicate-free, filtering on
a present key keeps exactly that entry. -/
theorem filter_fst_single {K A : Type} [DecidableEq K] :
    ∀ (l : List (K × A)), (l.map Prod.fst).Nodup →
      ∀ {k : K} {a : A}, (k, a) ∈ l → l.filter (fun kv => kv.1 = k) = [(k, a)] := by
  intro l
  induction l with
  | nil =>
      intro _ k a h
      simp at h
  | cons x xs ih =>
      intro hnd k a hmem
      have hnd2 : (xs.map Prod.fst).Nodup := (List.nodup_cons.mp (by simpa using hnd)).2
      have hx1 : x.1 ∉ xs.map Prod.fst := (List.nodup_cons.mp (by simpa using hnd)).1
      rcases List.mem_cons.mp hmem with heq | hmem2
      · subst heq
        have hnil : xs.filter (fun kv => kv.1 = k) = [] := by
          rw [List.filter_eq_nil_iff]
          intro kv hkv hk
          simp only [decide_eq_true_eq] at hk
          have hmm := List.mem_map_of_mem Prod.fst hkv
          rw [hk] at hmm
          exact hx1 hmm
        simp [List.filter_cons, hnil]
      · have hxk : ¬ x.1 = k := by
          intro hk
          have hmm := List.mem_map_of_mem Prod.fst hmem2
          rw [← hk] at hmm
          exact hx1 hmm
        simp only [List.filter_cons]
        rw [if_neg (by simpa using hxk)]
        exact ih hnd2 hmem2

/-- Every entry of the flow link map comes from an accumulated transition:
its key is that transition's encoding and, when all transition labels are
pipe-free, decodes back to it. -/
theorem flowLink_key_decomp (rows : List CsvRow)
    (hp : ∀ r ∈ rows, PipeFree (jsStr r.genre) ∧ PipeFree (jsStr r.age_category)) :
    ∀ kv ∈ rollupCount (flowTransitions rows) (fun p => encodeKey p.1 p.2),
      ∃ p ∈ flowTransitions rows, kv.1 = encodeKey p.1 p.2 ∧ decodeKey kv.1 = p := by
  intro kv hkv
  obtain ⟨⟨p, hpT, hpk⟩, _⟩ :=
    of_mem_rollupCount (show (kv.1, kv.2) ∈ _ from hkv)
  have hpf := flowTransitions_pipeFree rows hp p hpT
  refine ⟨p, hpT, hpk.symm, ?_⟩
  rw [← hpk]
  exact decodeKey_encodeKey hpf.1 hpf.2

/-- C6 (amended): rows outside the top-10 genres contribute no transitions
(dropped entirely, no "Other" bucket); and provided no genre or age label
contains the pipe character (so the `'|||'`-delimited link keys are
unambiguous), every (source, target) pair occurring among the surviving
rows' stage transitions yields exactly one emitted link, whose weight is
the number of occurrences of that transition — counting each of a row's
three stage transitions separately, since they may coincide. -/
theorem C6_amended_thm (rows : List CsvRow)
    (hp : ∀ r ∈ rows, PipeFree (jsStr r.genre) ∧ PipeFree (jsStr r.age_category)) :
    (∀ r ∈ rows, r.genre ∉ topGenresOf rows 10 →
        rowTransitions (topGenresOf rows 10) r = [])
    ∧ ∀ s t, (s, t) ∈ flowTransitions rows →
        ((flowLinks rows).filter (fun lk => lk.source = s ∧ lk.target = t)).length = 1
        ∧ ∀ lk ∈ flowLinks rows, lk.source = s → lk.target = t →
            lk.value = ((flowTransitions rows).filter (fun p => p = (s, t))).length := by
  constructor
  · intro r _ hout
    unfold rowTransitions
    rw [if_neg hout]
  intro s t hst
  have hTpf := flowTransitions_pipeFree rows hp
  have hspf := hTpf (s, t) hst
  have hkey_mem : (encodeKey s t,
      ((flowTransitions rows).filter
        (fun x => encodeKey x.1 x.2 = encodeKey s t)).length)
      ∈ rollupCount (flowTransitions rows) (fun p => encodeKey p.1 p.2) :=
    mem_rollupCount_of_mem _ hst
  have hdecomp := flowLink_key_decomp rows hp
  have hnd := rollupCount_keys_nodup (flowTransitions rows) (fun p => encodeKey p.1 p.2)
  have hfm : (flowLinks rows).filter (fun lk => lk.source = s ∧ lk.target = t)
      = ((rollupCount (flowTransitions rows) (fun p => encodeKey p.1 p.2)).filter
          (fun kv => (decodeKey kv.1).1 = s ∧ (decodeKey kv.1).2 = t)).map
        (fun kv => MyLink.mk (decodeKey kv.1).1 (decodeKey kv.1).2 kv.2) := by
    unfold flowLinks
    rw [List.filter_map]
    rfl
  have hfc : (rollupCount (flowTransitions rows) (fun p => encodeKey p.1 p.2)).filter
        (fun kv => (decodeKey kv.1).1 = s ∧ (decodeKey kv.1).2 = t)
      = (rollupCount (flowTransitions rows) (fun p => encodeKey p.1 p.2)).filter
        (fun kv => kv.1 = encodeKey s t) := by
    apply List.filter_congr
    intro kv hkv
    obtain ⟨p, hpT, hk, hdec⟩ := hdecomp kv hkv
    have hppf := hTpf p hpT
    apply decide_eq_decide.mpr
    rw [hdec]
    constructor
    · rintro ⟨h1, h2⟩
      rw [hk, ← h1, ← h2]
    · intro hkk
      rw [hk] at hkk
      obtain ⟨h1, h2⟩ := encodeKey_inj hppf.1 hppf.2 hspf.1 hspf.2 hkk
      exact ⟨h1, h2⟩
  constructor
  · rw [hfm, hfc, filter_fst_single _ hnd hkey_mem]
    rfl
  · intro lk hlk hs2 ht2
    unfold flowLinks at hlk
    obtain ⟨kv, hkv, rfl⟩ := List.mem_map.mp hlk
    obtain ⟨p, hpT, hk, hdec⟩ := hdecomp kv hkv
    have hppf := hTpf p hpT
    simp only at hs2 ht2
    rw [hdec] at hs2 ht2
    obtain ⟨⟨_, _⟩, hc⟩ := of_mem_rollupCount (show (kv.1, kv.2) ∈ _ from hkv)
    show kv.2 = _
    rw [hc]
    have hfc2 : (flowTransitions rows).filter (fun x => encodeKey x.1 x.2 = kv.1)
        = (flowTransitions rows).filter (fun x => x = (s, t)) := by
      apply List.filter_congr
      intro x hxT
      have hxpf := hTpf x hxT
      apply decide_eq_decide.mpr
      rw [hk, ← hs2, ← ht2]
      constructor
      · intro hxx
        obtain ⟨h1, h2⟩ := encodeKey_inj hxpf.1 hxpf.2 hppf.1 hppf.2 hxx
        rw [← h1, ← h2]
      · intro hxx
        rw [hxx]
    rw [hfc2]

/-- C6 counterexample.  First: with genre "a|||b" / age "c" in one row and
genre "a" / age "b|||c" in another (both top-10), the transition
("a|||b", "c") occurs among surviving rows but no link with that source and
target is emitted — both rows' genre→age keys collide as "a|||b|||c", which
splits back as ("a", "b").  Second: a single row whose genre and age both
equal "Not Adapted To Movie" yields the link ("Not Adapted To Movie",
"Not Adapted To Movie") with weight 2 although only one surviving row
produces that transition. -/
theorem C6_counterexample :
    (("a|||b", "c") ∈ flowTransitions
        [CsvRow.mk (some "a|||b") (some "c") none none none,
         CsvRow.mk (some "a") (some "b|||c") none none none]
      ∧ ((flowLinks
          [CsvRow.mk (some "a|||b") (some "c") none none none,
           CsvRow.mk (some "a") (some "b|||c") none none none]).filter
          (fun lk => lk.source = "a|||b" ∧ lk.target = "c")).length = 0)
    ∧ (MyLink.mk "Not Adapted To Movie" "Not Adapted To Movie" 2
        ∈ flowLinks
          [CsvRow.mk (some "Not Adapted To Movie") (some "Not Adapted To Movie") none none none]
      ∧ ([CsvRow.mk (some "Not Adapted To Movie") (some "Not Adapted To Movie") none none none].filter
          (fun r => ("Not Adapted To Movie", "Not Adapted To Movie")
            ∈ rowTransitions
              (topGenresOf
                [CsvRow.mk (some "Not Adapted To Movie") (some "Not Adapted To Movie") none none none]
                10) r)).length = 1) := by
  decide

/-- Witness for C6 (amended): on a one-row input with pipe-free labels, the
transition ("Fantasy", "Adult") occurs and is emitted as exactly one link
whose weight is its occurrence count. -/
theorem C6_witness :
    ((flowLinks [CsvRow.mk (some "Fantasy") (some "Adult") none (some "true") none]).filter
        (fun lk => lk.source = "Fantasy" ∧ lk.target = "Adult")).length = 1
    ∧ ∀ lk ∈ flowLinks [CsvRow.mk (some "Fantasy") (some "Adult") none (some "true") none],
        lk.source = "Fantasy" → lk.target = "Adult" →
          lk.value = ((flowTransitions
            [CsvRow.mk (some "Fantasy") (some "Adult") none (some "true") none]).filter
              (fun p => p = ("Fantasy", "Adult"))).length :=
  (C6_amended_thm [CsvRow.mk (some "Fantasy") (some "Adult") none (some "true") none]
    (by decide)).2 "Fantasy" "Adult" (by decide)

/-- C10: the Sankey layer-3 label is "Bestseller" exactly when the
bestseller_status field lowercases to "true" (and is always one of the two
labels, mapping a missing or empty field to "Not Bestseller"); analogously
for the layer-2 movie-adaptation label; and every surviving row emits its
movie-status→bestseller-status transition, so such rows are never excluded
for a missing status field. -/
theorem C10_thm (rows : List CsvRow) (r : CsvRow) (hr : r ∈ rows)
    (hg : r.genre ∈ topGenresOf rows 10) :
    (∀ f : Option String, bestsellerLabel f = "Bestseller" ↔ jsToLower (jsStr f) = "true")
    ∧ (∀ f : Option String,
        bestsellerLabel f = "Bestseller" ∨ bestsellerLabel f = "Not Bestseller")
    ∧ bestsellerLabel none = "Not Bestseller"
    ∧ bestsellerLabel (some "") = "Not Bestseller"
    ∧ (∀ f : Option String, movieLabel f = "Adapted To Movie" ↔ jsToLower (jsStr f) = "true")
    ∧ (∀ f : Option String,
        movieLabel f = "Adapted To Movie" ∨ movieLabel f = "Not Adapted To Movie")
    ∧ movieLabel none = "Not Adapted To Movie"
    ∧ (movieLabel r.adapted_to_movie, bestsellerLabel r.bestseller_status)
        ∈ flowTransitions rows := by
  refine ⟨?_, ?_, by decide, by decide, ?_, ?_, by decide, ?_⟩
  · intro f
    unfold bestsellerLabel
    by_cases h : jsToLower (jsStr f) = "true" <;> simp [h]
  · intro f
    unfold bestsellerLabel
    by_cases h : jsToLower (jsStr f) = "true" <;> simp [h]
  · intro f
    unfold movieLabel
    by_cases h : jsToLower (jsStr f) = "true" <;> simp [h]
  · intro f
    unfold movieLabel
    by_cases h : jsToLower (jsStr f) = "true" <;> simp [h]
  · unfold flowTransitions
    rw [List.mem_flatten]
    refine ⟨rowTransitions (topGenresOf rows 10) r, List.mem_map_of_mem _ hr, ?_⟩
    unfold rowTransitions
    rw [if_pos hg]
    simp

/-- Witness for C10: on a one-row input whose bestseller field is "TRUE"
and whose movie field is missing, the row emits the transition
("Not Adapted To Movie", "Bestseller"). -/
theorem C10_witness :
    bestsellerLabel none = "Not Bestseller"
    ∧ (movieLabel (CsvRow.mk (some "Fantasy") (some "Adult") none (some "TRUE") none).adapted_to_movie,
        bestsellerLabel (CsvRow.mk (some "Fantasy") (some "Adult") none (some "TRUE") none).bestseller_status)
      ∈ flowTransitions [CsvRow.mk (some "Fantasy") (some "Adult") none (some "TRUE") none] :=
  ⟨(C10_thm [CsvRow.mk (some "Fantasy") (some "Adult") none (some "TRUE") none]
      (CsvRow.mk (some "Fantasy") (some "Adult") none (some "TRUE") none)
      (by decide) (by decide)).2.2.1,
   (C10_thm [CsvRow.mk (some "Fantasy") (some "Adult") none (some "TRUE") none]
      (CsvRow.mk (some "Fantasy") (some "Adult") none (some "TRUE") none)
      (by decide) (by decide)).2.2.2.2.2.2.2⟩

/-- Witness for C3 (amended): a one-row input with an empty genre field
still contributes 1 to the summed values. -/
theorem C3_witness :
    ((barReducer [CsvRow.mk (some "") (some "Adult") none none none]).map
        (fun b => b.value)).sum = 1 :=
  C3_amended_thm [CsvRow.mk (some "") (some "Adult") none none none]

/-- Witness for C5: on a concrete two-row input the heatmap output carries
at most 21 distinct genre labels and "Fiction" occurs as a label. -/
theorem C5_witness :
    ((heatmapReducer
        [CsvRow.mk (some "Fiction") none (some 1994) none none,
         CsvRow.mk (some "Romance") none (some 1980) none none]).map
      (fun d => d.genre)).toFinset.card ≤ 21
    ∧ ∃ d ∈ heatmapReducer
        [CsvRow.mk (some "Fiction") none (some 1994) none none,
         CsvRow.mk (some "Romance") none (some 1980) none none],
        d.genre = some "Fiction" :=
  ⟨(C5_thm [CsvRow.mk (some "Fiction") none (some 1994) none none,
      CsvRow.mk (some "Romance") none (some 1980) none none]).2,
   ((C5_thm [CsvRow.mk (some "Fiction") none (some 1994) none none,
      CsvRow.mk (some "Romance") none (some 1980) none none]).1 (some "Fiction")).mpr
     (Or.inl (by decide))⟩

end BookSwap
